import Mathlib

/-!
Verification of the abs-kosync-bridge synchronization core.

This file shallowly embeds the parts of the repository that the checked
properties concern:

* `src/ebook_utils.py` — `EbookParser.extract_text_and_map`,
  `EbookParser.find_text_location`, `EbookParser.get_text_at_percentage`,
  `EbookParser.get_character_delta`;
* `src/main.py` — `SyncManager.sync_cycle` (the per-mapping body after a
  successful fetch of both providers), `SyncManager.check_pending_jobs`,
  `SyncManager.cleanup_stale_jobs`.

Modelling conventions:

* Python floats are modelled exactly by `ℚ` (rounding of IEEE doubles is not
  relevant to any of the checked comparisons);
* external collaborators (provider clients, the transcriber, the RapidFuzz
  alignment primitive, BeautifulSoup-based xpath generation) are inputs of the
  embedded functions: a parameter holds the value the call would return;
* an uncaught Python exception is an `Except.error`; exceptions that the
  source catches locally are folded into the corresponding explicit result;
* Python `str.find` returning `-1` becomes `Option.none`, `int()` truncation
  toward zero becomes `pytrunc`.
-/

/-- Uncaught Python exception kinds that the embedded code can raise. -/
inductive PyErr where
  | typeError
  deriving DecidableEq, Repr

/-- Truthiness of an optional Python string (`if s:`): `None` and `""` are
falsy. -/
def truthy : Option String → Bool
  | none => false
  | some s => decide (s ≠ "")

/-- Python `int()` truncation toward zero on a rational. -/
def pytrunc (q : ℚ) : ℤ := if 0 ≤ q then ⌊q⌋ else ⌈q⌉

/-! ## Text indexing (`EbookParser.extract_text_and_map`, lines 77-118) -/

/-- One entry of the `spine_map` built by `extract_text_and_map`: the
fragment's `[start, end)` range in the combined text, its 1-based spine index,
and its extracted plain text (the source stores the raw markup `content`; the
extracted text is what determines the offsets, so the model carries it).
`stop` renders the source's `end` key, which is a reserved word in Lean. -/
structure Fragment where
  start : ℕ
  stop : ℕ
  spineIndex : ℕ
  text : String
  deriving DecidableEq, Repr

/-- One spine entry of the EPUB: either a document item, abstracted to the
plain text that `BeautifulSoup.get_text` extracts from it, or a non-document
item that the loop skips (`item.get_type() != ITEM_DOCUMENT`). -/
inductive SpineItem where
  | doc (text : String)
  | other
  deriving DecidableEq, Repr

/-- The loop body of `extract_text_and_map` (lines 90-108): walk the spine
with running spine position `i` and running offset `cur`; a document item
becomes a fragment `[cur, cur+len)` with spine index `i+1` and advances
`cur` by `len + 1` (one separator); other items only advance `i`. Returns the
fragment map and the list of extracted text parts. -/
def buildParts : List SpineItem → ℕ → ℕ → List Fragment × List String
  | [], _, _ => ([], [])
  | .other :: rest, i, cur => buildParts rest (i + 1) cur
  | .doc tx :: rest, i, cur =>
      let frag : Fragment := ⟨cur, cur + tx.length, i + 1, tx⟩
      let r := buildParts rest (i + 1) (cur + tx.length + 1)
      (frag :: r.1, tx :: r.2)

/-- Python `" ".join(parts)` (line 110). -/
def joinSp : List String → String
  | [] => ""
  | [p] => p
  | p :: q :: rest => p ++ " " ++ joinSp (q :: rest)

/-- Embedding of `extract_text_and_map`: the combined text stream and the spine map built
from the ordered spine items. -/
def extractTextAndMap (items : List SpineItem) : String × List Fragment :=
  let r := buildParts items 0 0
  (joinSp r.2, r.1)

/-! ## Substring search and normalization (`find_text_location` support) -/

/-- Leftmost occurrence search on character lists, mirroring Python
`str.find` (with `none` for `-1`). -/
def listFind (pat : List Char) : List Char → Option ℕ
  | [] => if pat.isPrefixOf [] then some 0 else none
  | c :: t =>
      if pat.isPrefixOf (c :: t) then some 0
      else (listFind pat t).map (· + 1)

/-- Python `hay.find(pat)` with `none` for `-1`. -/
def strFind (hay pat : String) : Option ℕ := listFind pat.toList hay.toList

/-- Proposition that `pat` occurs in `hay` starting at character position `i`. -/
def occursAt (hay pat : String) (i : ℕ) : Prop :=
  pat.toList.isPrefixOf (hay.toList.drop i) = true

instance (hay pat : String) (i : ℕ) : Decidable (occursAt hay pat i) := by
  unfold occursAt; infer_instance

/-- Embedding of `EbookParser._normalize` (lines 161-162): lowercase, then keep only
`[a-z0-9]`. -/
def normalizeText (s : String) : String :=
  String.mk (((s.toList).map Char.toLower).filter fun c => c.isLower || c.isDigit)

/-! ## `EbookParser.find_text_location` (lines 164-267) -/

/-- Result of `find_text_location` as seen by its caller. `found` is the
3-tuple `(percentage, xpath, match_index)`; `noMatch` is the well-formed
no-match 3-tuple `(None, None, None)`; `malformed` is the 2-tuple
`return None, None` of line 171 (the empty-text early return), which does not
unpack into the caller's three variables. -/
inductive FindRes where
  | malformed
  | noMatch
  | found (pct : ℚ) (xpath : Option String) (idx : ℕ)
  deriving DecidableEq, Repr

/-- Successful-match epilogue of `find_text_location` (lines 247-258):
percentage, xpath through the owning spine fragment (via the abstracted
BeautifulSoup xpath generator `xg`, prefixed with `/body/DocFragment[i]`),
and the absolute match index. -/
def finishMatch (xg : Fragment → ℕ → String) (fullText : String)
    (spineMap : List Fragment) (idx : ℕ) : FindRes :=
  let pct : ℚ := (idx : ℚ) / (fullText.length : ℚ)
  let xp := (spineMap.find? fun f => decide (f.start ≤ idx) && decide (idx < f.stop)).map
    fun f => "/body/DocFragment[" ++ toString f.spineIndex ++ "]" ++ xg f (idx - f.start)
  .found pct xp idx

/-- Embedding of `find_text_location` given the already-extracted stream and spine map.
`align` abstracts `rapidfuzz.fuzz.partial_ratio_alignment` without a cutoff:
it returns the best alignment's `(score, dest_start)`; the source's
`score_cutoff=75` argument is rendered by the explicit `75 ≤ score` test
(RapidFuzz returns `None` exactly when the best score is below the cutoff).
The branch where both normalized strings are empty renders the
`ZeroDivisionError` of line 192 (`norm_index / len(norm_content)` with an
empty normalized stream), which the `except` on line 265 turns into the
no-match 3-tuple without ever reaching the fuzzy tier. -/
def findTextLocation (align : String → String → Option (ℚ × ℕ))
    (xg : Fragment → ℕ → String) (fullText : String) (spineMap : List Fragment)
    (phrase : String) : FindRes :=
  if fullText = "" then .malformed
  else
    match strFind fullText phrase with
    | some i => finishMatch xg fullText spineMap i
    | none =>
      let normC := normalizeText fullText
      let normS := normalizeText phrase
      match strFind normC normS with
      | some ni =>
        if normC.length = 0 then .noMatch
        else finishMatch xg fullText spineMap (ni * fullText.length / normC.length)
      | none =>
        match align phrase fullText with
        | some sd => if 75 ≤ sd.1 then finishMatch xg fullText spineMap sd.2 else .noMatch
        | none => .noMatch

/-- Modelled from the spec's words (refinement reference for the three-tier
claim): exact leftmost search, then normalized search with proportional
offset conversion, then fuzzy alignment accepted at score ≥ 75, first
successful tier determining the result and `noMatch` when all fail. It has
no empty-normalized-stream carve-out: a normalized hit converts by the
proportion formula (ℕ division, 0 when the normalized stream is empty). -/
def findTextLocationSpec (align : String → String → Option (ℚ × ℕ))
    (xg : Fragment → ℕ → String) (fullText : String) (spineMap : List Fragment)
    (phrase : String) : FindRes :=
  match strFind fullText phrase with
  | some i => finishMatch xg fullText spineMap i
  | none =>
    match strFind (normalizeText fullText) (normalizeText phrase) with
    | some ni =>
        finishMatch xg fullText spineMap (ni * fullText.length / (normalizeText fullText).length)
    | none =>
      match align phrase fullText with
      | some sd => if 75 ≤ sd.1 then finishMatch xg fullText spineMap sd.2 else .noMatch
      | none => .noMatch

/-! ## `get_text_at_percentage` and `get_character_delta` (lines 269-312) -/

/-- Python slice `t[s:e]` for `0 ≤ s` (negative `e - s` yields `""`). -/
def sliceStr (t : String) (s e : ℤ) : String :=
  String.mk ((t.toList.drop s.toNat).take (e - s).toNat)

/-- Embedding of `get_text_at_percentage`: the ±450-character probe window around
`int(total_len * percentage)`; `none` renders the `None` returned for an
empty stream (and for a missing book file, which callers pass as `none`
upstream of this model). -/
def getTextAtPercentage (fullText : String) (pct : ℚ) : Option String :=
  if fullText = "" then none
  else
    let total : ℤ := fullText.length
    let target : ℤ := pytrunc ((fullText.length : ℚ) * pct)
    some (sliceStr fullText (max 0 (target - 450)) (min total (target + 450)))

/-- Embedding of `get_character_delta`: absolute difference of the two fractions' character
offsets; `none` for an empty stream (or missing book file). -/
def getCharacterDelta (fullText : String) (pPrev pNew : ℚ) : Option ℤ :=
  if fullText = "" then none
  else
    some |pytrunc ((fullText.length : ℚ) * pNew) - pytrunc ((fullText.length : ℚ) * pPrev)|

/-! ## `SyncManager.sync_cycle` per-mapping body (lines 225-346) -/

/-- Persisted per-mapping sync state (the `prev_state` dictionary after the
field-by-field defaulting of lines 243-246). -/
structure SyncState where
  abs_ts : ℚ
  kosync_pct : ℚ
  last_updated : ℚ
  kosync_index : ℤ
  deriving DecidableEq, Repr

/-- Sync thresholds (`SYNC_DELTA_ABS_SECONDS` and the percentage threshold
already divided by 100, lines 57-61). -/
structure Config where
  absThresh : ℚ
  kosyncThresh : ℚ
  deriving DecidableEq, Repr

/-- Which side is the source of truth for the cycle (line 291). -/
inductive Source where
  | ABS
  | KOSYNC
  deriving DecidableEq, Repr

/-- An update pushed to a collaborator: `kosync_client.update_progress`
(line 312) or `abs_client.update_progress` (line 326). -/
inductive Push where
  | kosync (pct : ℚ) (xpath : Option String)
  | abs (ts : ℚ)
  deriving DecidableEq, Repr

/-- Outcome of the threshold/stabilization phase (lines 248-283): the mutated
`prev_state`, the `_save_state` snapshots emitted so far, and the two change
flags. -/
structure GateOut where
  st : SyncState
  saves : List SyncState
  aCh : Bool
  kCh : Bool
  deriving DecidableEq, Repr

/-- Threshold logic and sub-threshold stabilization (lines 248-283).
`charDelta` is the value `get_character_delta` would return; `none` makes the
source evaluate `None > 2000`, an uncaught `TypeError` (line 273 is outside
any `try`). `t` is the wall clock (`time.time()`). -/
def gatePhase (cfg : Config) (prev0 : SyncState) (absP kosP : ℚ)
    (charDelta : Option ℤ) (t : ℚ) : Except PyErr GateOut :=
  let aD := |absP - prev0.abs_ts|
  let kD := |kosP - prev0.kosync_pct|
  let aCh : Bool := decide (cfg.absThresh < aD)
  let kCh0 : Bool := decide (cfg.kosyncThresh < kD)
  let p1 : SyncState :=
    if 0 < aD ∧ aCh = false then
      { prev0 with abs_ts := absP, last_updated := t, kosync_index := 0 }
    else prev0
  let s1 : List SyncState := if 0 < aD ∧ aCh = false then [p1] else []
  if 0 < kD ∧ kCh0 = false then
    match charDelta with
    | none => .error .typeError
    | some c =>
      if 2000 < c then .ok ⟨p1, s1, aCh, true⟩
      else
        let p2 : SyncState := { p1 with kosync_pct := kosP, last_updated := t, kosync_index := 0 }
        .ok ⟨p2, s1 ++ [p2], aCh, false⟩
  else .ok ⟨p1, s1, aCh, kCh0⟩

/-- The `updated_ok = False` epilogue (lines 338-343): stabilize both
last-known values to the observed ones with a fresh timestamp. -/
def stabilized (st : SyncState) (absP kosP t : ℚ) : SyncState :=
  { st with abs_ts := absP, kosync_pct := kosP, last_updated := t }

/-- The propagation `try` block (lines 296-344) for a chosen source:
returns the pushes issued and the `_save_state` snapshots. `probeText` is
`transcriber.get_text_at_time`'s value, `findRes` is
`ebook_parser.find_text_location`'s, `readProbe` is
`get_text_at_percentage`'s, `matchedTime` is `find_time_for_text`'s;
a `FindRes.malformed` value makes the 3-way unpacking on line 303 raise
`ValueError`, caught on line 345, so nothing further is pushed or saved. -/
def resolvePhase (st : SyncState) (absP kosP : ℚ) (probeText : Option String)
    (findRes : FindRes) (readProbe : Option String) (matchedTime : Option ℚ)
    (t : ℚ) : Source → List Push × List SyncState
  | .ABS =>
    if truthy probeText then
      match findRes with
      | .malformed => ([], [])
      | .noMatch => ([], [stabilized st absP kosP t])
      | .found pct xp idx =>
        let d : ℤ := |(idx : ℤ) - st.kosync_index|
        ([Push.kosync pct xp],
         [{ st with abs_ts := absP, kosync_pct := pct, kosync_index := d, last_updated := t }])
    else ([], [stabilized st absP kosP t])
  | .KOSYNC =>
    if truthy readProbe then
      match matchedTime with
      | none => ([], [stabilized st absP kosP t])
      | some mt =>
        ([Push.abs mt], [{ st with abs_ts := mt, kosync_pct := kosP, last_updated := t }])
    else ([], [stabilized st absP kosP t])

/-- What one mapping's cycle produced: pushes to collaborators, the ordered
`_save_state` snapshots, and the chosen source of truth (`none` when neither
side was classified changed and the body skipped to the next mapping). -/
structure CycleResult where
  pushes : List Push
  saves : List SyncState
  src : Option Source
  deriving DecidableEq, Repr

/-- The per-mapping body of `sync_cycle` after both provider fetches
succeeded (lines 241-346). -/
def cycleBody (cfg : Config) (prev0 : SyncState) (absP kosP : ℚ)
    (charDelta : Option ℤ) (probeText : Option String) (findRes : FindRes)
    (readProbe : Option String) (matchedTime : Option ℚ) (t : ℚ) :
    Except PyErr CycleResult :=
  match gatePhase cfg prev0 absP kosP charDelta t with
  | .error e => .error e
  | .ok g =>
    if g.aCh = false ∧ g.kCh = false then .ok ⟨[], g.saves, none⟩
    else
      let src := if g.aCh = true then Source.ABS else Source.KOSYNC
      let pr := resolvePhase g.st absP kosP probeText findRes readProbe matchedTime t src
      .ok ⟨pr.1, g.saves ++ pr.2, some src⟩

/-! ## Job lifecycle (`check_pending_jobs`, `cleanup_stale_jobs`) -/

/-- Lifecycle status of a mapping (`status` field of `mapping_db.json`). -/
inductive JobStatus where
  | pending
  | processing
  | active
  | failed
  | failedRetryLater
  | crashed
  deriving DecidableEq, Repr

/-- One entry of `db['mappings']`, restricted to the fields the lifecycle
logic touches. -/
structure JobMapping where
  absId : ℕ
  status : JobStatus
  transcriptFile : Option String
  deriving DecidableEq, Repr

/-- Outcome of the preparation work for one pending job: `get_audio_files`
came back empty (line 197), an exception was raised (line 214), or
transcription succeeded with the given transcript path. -/
inductive PrepOutcome where
  | noAudio
  | exc
  | success (path : String)
  deriving DecidableEq, Repr

/-- Apply a preparation outcome to a claimed mapping (lines 196-217). -/
def processJob (m : JobMapping) : PrepOutcome → JobMapping
  | .noAudio => { m with status := .failed }
  | .exc => { m with status := .failedRetryLater }
  | .success p => { m with status := .active, transcriptFile := some p }

/-- Net effect of one `check_pending_jobs` run on a single mapping. -/
def stepJob (oc : ℕ → PrepOutcome) (m : JobMapping) : JobMapping :=
  if m.status = .pending then processJob { m with status := .processing } (oc m.absId) else m

/-- The loop of `check_pending_jobs` (lines 187-217): walk the mappings in
order with the already-visited prefix `done`; every `pending` mapping is
marked `processing` and saved (lines 192-193), then its preparation outcome
is applied and saved again. Returns the final mapping list and the ordered
`_save_db` snapshots. -/
def checkPendingAux (oc : ℕ → PrepOutcome) (done : List JobMapping) :
    List JobMapping → List JobMapping × List (List JobMapping)
  | [] => (done, [])
  | m :: rest =>
    if m.status = .pending then
      let mProc : JobMapping := { m with status := .processing }
      let mFin := processJob mProc (oc m.absId)
      let r := checkPendingAux oc (done ++ [mFin]) rest
      (r.1, (done ++ mProc :: rest) :: (done ++ mFin :: rest) :: r.2)
    else
      checkPendingAux oc (done ++ [m]) rest

/-- Embedding of `check_pending_jobs` over the freshly loaded db. -/
def checkPendingJobs (oc : ℕ → PrepOutcome) (db : List JobMapping) :
    List JobMapping × List (List JobMapping) :=
  checkPendingAux oc [] db

/-- Embedding of `cleanup_stale_jobs` (lines 76-84): every `processing` mapping becomes
`crashed`. -/
def cleanupStaleJobs (db : List JobMapping) : List JobMapping :=
  db.map fun m => if m.status = .processing then { m with status := .crashed } else m

/-! ## Helper lemmas -/

lemma getLast?_append_singleton {α : Type} (l : List α) (a : α) :
    (l ++ [a]).getLast? = some a := by
  induction l with
  | nil => rfl
  | cons b t ih =>
    rw [List.cons_append, List.getLast?_cons]
    simp [ih]


/-- Characterization of `listFind`: it returns exactly the leftmost prefix
position. -/
lemma listFind_some_iff (pat hay : List Char) (i : ℕ) :
    listFind pat hay = some i ↔
      (pat.isPrefixOf (hay.drop i) = true ∧
        ∀ j, j < i → pat.isPrefixOf (hay.drop j) = false) := by
  induction hay generalizing i with
  | nil =>
    constructor
    · intro h
      simp only [listFind] at h
      by_cases hp : pat.isPrefixOf ([] : List Char) = true
      · rw [if_pos hp] at h
        cases h
        exact ⟨by simpa using hp, fun j hj => absurd hj (Nat.not_lt_zero j)⟩
      · rw [if_neg hp] at h
        cases h
    · rintro ⟨h1, h2⟩
      simp only [listFind]
      rcases Nat.eq_zero_or_pos i with hi | hi
      · subst hi
        rw [if_pos (by simpa using h1)]
      · have h0 := h2 0 hi
        simp only [List.drop_nil] at h1 h0
        rw [h1] at h0
        cases h0
  | cons c t ih =>
    constructor
    · intro h
      simp only [listFind] at h
      by_cases hp : pat.isPrefixOf (c :: t) = true
      · rw [if_pos hp] at h
        cases h
        exact ⟨by simpa using hp, fun j hj => absurd hj (Nat.not_lt_zero j)⟩
      · rw [if_neg hp] at h
        rcases Option.map_eq_some'.mp h with ⟨i', hfind, hi⟩
        subst hi
        rcases (ih i').mp hfind with ⟨h1, h2⟩
        refine ⟨by simpa using h1, ?_⟩
        intro j hj
        cases j with
        | zero =>
          simpa using Bool.eq_false_iff.mpr hp
        | succ m =>
          simpa using h2 m (by omega)
    · rintro ⟨h1, h2⟩
      simp only [listFind]
      by_cases hp : pat.isPrefixOf (c :: t) = true
      · rcases Nat.eq_zero_or_pos i with hi | hi
        · subst hi
          rw [if_pos hp]
        · have h0 := h2 0 hi
          simp only [List.drop_zero] at h0
          rw [hp] at h0
          cases h0
      · rw [if_neg hp]
        cases i with
        | zero =>
          exfalso
          simp only [List.drop_zero] at h1
          exact hp h1
        | succ n =>
          have hfind : listFind pat t = some n :=
            (ih n).mpr ⟨by simpa using h1, fun m hm => by simpa using h2 (m + 1) (by omega)⟩
          rw [hfind]
          rfl

lemma joinSp_length (ps : List String) :
    (joinSp ps).length = (ps.map String.length).sum + ps.length - 1 := by
  induction ps with
  | nil => rfl
  | cons p t ih =>
    cases t with
    | nil => simp [joinSp]
    | cons q r =>
      have h1 : 1 ≤ ((q :: r).map String.length).sum + (q :: r).length := by
        simp only [List.map_cons, List.sum_cons, List.length_cons]
        omega
      have hsp : (" " : String).length = 1 := rfl
      rw [joinSp, String.length_append, String.length_append, ih, hsp]
      simp only [List.map_cons, List.sum_cons, List.length_cons] at h1 ⊢
      omega

/-- Structural invariant of `buildParts`: parts are the fragment texts, every
fragment starts at or after `cur` with width equal to its text and spine index
above `i`, fragments are pairwise ordered and adjacent ones contiguous with
one separator, and the first fragment starts exactly at `cur`. -/
lemma buildParts_inv (items : List SpineItem) (i cur : ℕ) :
    (buildParts items i cur).2 = (buildParts items i cur).1.map Fragment.text ∧
    (∀ f ∈ (buildParts items i cur).1,
        cur ≤ f.start ∧ f.stop = f.start + f.text.length ∧ i < f.spineIndex) ∧
    (buildParts items i cur).1.Pairwise
        (fun f g => f.stop < g.start ∧ f.spineIndex < g.spineIndex) ∧
    (buildParts items i cur).1.Chain' (fun f g => f.stop + 1 = g.start) ∧
    (∀ f, (buildParts items i cur).1.head? = some f → f.start = cur) := by
  induction items generalizing i cur with
  | nil => simp [buildParts]
  | cons it rest ih =>
    cases it with
    | other =>
      obtain ⟨ihp, ihmem, ihpw, ihch, ihhd⟩ := ih (i + 1) cur
      simp only [buildParts]
      refine ⟨ihp, ?_, ihpw, ihch, ihhd⟩
      intro f hf
      rcases ihmem f hf with ⟨hs, hw, hi⟩
      exact ⟨hs, hw, by omega⟩
    | doc tx =>
      obtain ⟨ihp, ihmem, ihpw, ihch, ihhd⟩ := ih (i + 1) (cur + tx.length + 1)
      simp only [buildParts]
      refine ⟨?_, ?_, ?_, ?_, ?_⟩
      · simp [ihp]
      · intro f hf
        rcases List.mem_cons.mp hf with hf | hf
        · subst hf
          dsimp only
          exact ⟨le_refl _, rfl, by omega⟩
        · rcases ihmem f hf with ⟨hs, hw, hi⟩
          exact ⟨by omega, hw, by omega⟩
      · refine List.pairwise_cons.mpr ⟨?_, ihpw⟩
        intro g hg
        rcases ihmem g hg with ⟨hs, -, hi⟩
        dsimp only
        exact ⟨by omega, by omega⟩
      · refine List.chain'_cons'.mpr ⟨?_, ihch⟩
        intro g hg
        have := ihhd g hg
        dsimp only
        omega
      · intro f hf
        simp only [List.head?_cons, Option.some.injEq] at hf
        subst hf
        rfl

/-- The final mapping list of `check_pending_jobs` is the pointwise image of
`stepJob` after the visited prefix. -/
lemma checkPendingAux_fst (oc : ℕ → PrepOutcome) (rest : List JobMapping) :
    ∀ done, (checkPendingAux oc done rest).1 = done ++ rest.map (stepJob oc) := by
  induction rest with
  | nil => intro done; simp [checkPendingAux]
  | cons m t ih =>
    intro done
    by_cases hm : m.status = .pending
    · simp only [checkPendingAux, if_pos hm]
      rw [ih]
      simp [stepJob, if_pos hm, List.append_assoc]
    · simp only [checkPendingAux, if_neg hm]
      rw [ih]
      simp [stepJob, if_neg hm, List.append_assoc]

/-- Trace property of `check_pending_jobs`: for every pending mapping, the
`_save_db` snapshot carrying it as `processing` appears strictly before the
snapshot carrying its preparation outcome, with all earlier mappings already
in final form and all later ones untouched. -/
lemma checkPendingAux_trace (oc : ℕ → PrepOutcome) (pre : List JobMapping)
    (m : JobMapping) (post : List JobMapping) (hm : m.status = .pending) :
    ∀ done, ∃ j k : ℕ, j < k ∧
      (checkPendingAux oc done (pre ++ m :: post)).2[j]? =
        some (done ++ pre.map (stepJob oc) ++ { m with status := .processing } :: post) ∧
      (checkPendingAux oc done (pre ++ m :: post)).2[k]? =
        some (done ++ pre.map (stepJob oc) ++ stepJob oc m :: post) := by
  induction pre with
  | nil =>
    intro done
    refine ⟨0, 1, Nat.zero_lt_one, ?_, ?_⟩
    · simp [checkPendingAux, if_pos hm]
    · simp [checkPendingAux, if_pos hm, stepJob]
  | cons a t ih =>
    intro done
    have key : ∀ d : List JobMapping,
        checkPendingAux oc d ((a :: t) ++ m :: post) =
          (if a.status = .pending then
            ((d ++ { a with status := .processing } :: (t ++ m :: post)) ::
             (d ++ processJob { a with status := .processing } (oc a.absId) :: (t ++ m :: post)) ::
             (checkPendingAux oc (d ++ [stepJob oc a]) (t ++ m :: post)).2,
             (checkPendingAux oc (d ++ [stepJob oc a]) (t ++ m :: post)).1).swap
          else checkPendingAux oc (d ++ [stepJob oc a]) (t ++ m :: post)) := by
      intro d
      by_cases ha : a.status = .pending
      · simp [checkPendingAux, if_pos ha, stepJob, Prod.swap]
      · simp [checkPendingAux, if_neg ha, stepJob]
    by_cases ha : a.status = .pending
    · rcases ih (done ++ [stepJob oc a]) with ⟨j, k, hjk, hj, hk⟩
      refine ⟨j + 2, k + 2, by omega, ?_, ?_⟩
      · rw [key done, if_pos ha]
        simp only [Prod.swap]
        rw [List.getElem?_cons_succ, List.getElem?_cons_succ, hj]
        simp [stepJob, if_pos ha, List.append_assoc]
      · rw [key done, if_pos ha]
        simp only [Prod.swap]
        rw [List.getElem?_cons_succ, List.getElem?_cons_succ, hk]
        simp [stepJob, if_pos ha, List.append_assoc]
    · rcases ih (done ++ [stepJob oc a]) with ⟨j, k, hjk, hj, hk⟩
      refine ⟨j, k, hjk, ?_, ?_⟩
      · rw [key done, if_neg ha, hj]
        simp [stepJob, if_neg ha, List.append_assoc]
      · rw [key done, if_neg ha, hk]
        simp [stepJob, if_neg ha, List.append_assoc]

/-- In every non-raising run of the threshold phase, the audio-side change
flag is exactly the strict threshold comparison of line 252. -/
lemma gatePhase_aCh (cfg : Config) (prev0 : SyncState) (absP kosP : ℚ)
    (cd : Option ℤ) (t : ℚ) (g : GateOut)
    (h : gatePhase cfg prev0 absP kosP cd t = .ok g) :
    g.aCh = decide (cfg.absThresh < |absP - prev0.abs_ts|) := by
  simp only [gatePhase] at h
  split at h
  · split at h
    · exact Except.noConfusion h
    · split at h
      · injection h with h2
        subst h2
        rfl
      · injection h with h2
        subst h2
        rfl
  · injection h with h2
    subst h2
    rfl

/-- In every non-raising run of the threshold phase, the reading-side change
flag is true exactly when the fraction delta strictly exceeds the threshold
or the sub-threshold corroboration of lines 265-275 fired. -/
lemma gatePhase_kCh (cfg : Config) (prev0 : SyncState) (absP kosP : ℚ)
    (cd : Option ℤ) (t : ℚ) (g : GateOut)
    (h : gatePhase cfg prev0 absP kosP cd t = .ok g) :
    (g.kCh = true ↔
      (cfg.kosyncThresh < |kosP - prev0.kosync_pct| ∨
        (0 < |kosP - prev0.kosync_pct| ∧ ∃ c, cd = some c ∧ 2000 < c))) := by
  simp only [gatePhase] at h
  split at h
  · rename_i hcond
    split at h
    · exact Except.noConfusion h
    · rename_i x
      split at h
      · rename_i h2000
        injection h with h2
        subst h2
        simp only [true_iff]
        exact Or.inr ⟨hcond.1, x, rfl, h2000⟩
      · rename_i h2000
        injection h with h2
        subst h2
        simp only [Bool.false_eq_true, false_iff]
        rintro (hlt | ⟨hpos, c', hc', hcc⟩)
        · have hd := hcond.2
          simp only [decide_eq_false_iff_not] at hd
          exact hd hlt
        · injection hc' with he
          subst he
          exact h2000 hcc
  · rename_i hcond
    injection h with h2
    subst h2
    simp only
    constructor
    · intro hk
      exact Or.inl (of_decide_eq_true hk)
    · rintro (hlt | ⟨hpos, c, hc, h2000⟩)
      · exact decide_eq_true hlt
      · by_contra hne
        exact hcond ⟨hpos, by simpa using hne⟩

/-- Case analysis of the per-mapping body: either both flags were false and
the body skipped (line 285), or a source of truth was selected and the
propagation block ran. -/
lemma cycleBody_ok (cfg : Config) (prev0 : SyncState) (absP kosP : ℚ)
    (cd : Option ℤ) (pt : Option String) (fr : FindRes) (rp : Option String)
    (mt : Option ℚ) (t : ℚ) (r : CycleResult)
    (h : cycleBody cfg prev0 absP kosP cd pt fr rp mt t = .ok r) :
    ∃ g, gatePhase cfg prev0 absP kosP cd t = .ok g ∧
      ((g.aCh = false ∧ g.kCh = false ∧ r = ⟨[], g.saves, none⟩) ∨
       ((g.aCh = true ∨ g.kCh = true) ∧
         r = ⟨(resolvePhase g.st absP kosP pt fr rp mt t
                  (if g.aCh = true then .ABS else .KOSYNC)).1,
              g.saves ++ (resolvePhase g.st absP kosP pt fr rp mt t
                  (if g.aCh = true then .ABS else .KOSYNC)).2,
              some (if g.aCh = true then .ABS else .KOSYNC)⟩)) := by
  unfold cycleBody at h
  cases hg : gatePhase cfg prev0 absP kosP cd t with
  | error e =>
    rw [hg] at h
    exact Except.noConfusion h
  | ok g =>
    rw [hg] at h
    refine ⟨g, rfl, ?_⟩
    split at h
    · rename_i e he
      exact Except.noConfusion he
    · rename_i g' hgg
      injection hgg with hgg2
      subst hgg2
      split at h
      · rename_i hcond
        left
        injection h with h2
        exact ⟨hcond.1, hcond.2, h2.symm⟩
      · rename_i hcond
        right
        injection h with h2
        refine ⟨?_, h2.symm⟩
        rcases Bool.eq_false_or_eq_true g.aCh with ha | ha
        · exact Or.inl ha
        · rcases Bool.eq_false_or_eq_true g.kCh with hk | hk
          · exact Or.inr hk
          · exact absurd ⟨ha, hk⟩ hcond

/-- Audio-sourced propagation only ever pushes to the reading side. -/
lemma resolvePhase_ABS_pushes (st : SyncState) (absP kosP : ℚ)
    (pt : Option String) (fr : FindRes) (rp : Option String) (mt : Option ℚ)
    (t : ℚ) :
    ∀ p ∈ (resolvePhase st absP kosP pt fr rp mt t .ABS).1,
      ∃ pct xp, p = Push.kosync pct xp := by
  intro p hp
  simp only [resolvePhase] at hp
  split at hp
  · cases fr with
    | malformed => cases hp
    | noMatch => cases hp
    | found pct xp idx =>
      simp only [List.mem_singleton] at hp
      exact ⟨pct, xp, hp⟩
  · cases hp

/-- Reading-sourced propagation only ever pushes to the audio side. -/
lemma resolvePhase_KOSYNC_pushes (st : SyncState) (absP kosP : ℚ)
    (pt : Option String) (fr : FindRes) (rp : Option String) (mt : Option ℚ)
    (t : ℚ) :
    ∀ p ∈ (resolvePhase st absP kosP pt fr rp mt t .KOSYNC).1,
      ∃ ts, p = Push.abs ts := by
  intro p hp
  simp only [resolvePhase] at hp
  split at hp
  · cases mt with
    | none => cases hp
    | some v =>
      simp only [List.mem_singleton] at hp
      exact ⟨v, hp⟩
  · cases hp

/-- Computation form of the body once the threshold phase's result is
known. -/
lemma cycleBody_eq_of_gate (cfg : Config) (prev0 : SyncState) (absP kosP : ℚ)
    (cd : Option ℤ) (pt : Option String) (fr : FindRes) (rp : Option String)
    (mt : Option ℚ) (t : ℚ) (g : GateOut)
    (hg : gatePhase cfg prev0 absP kosP cd t = .ok g) :
    cycleBody cfg prev0 absP kosP cd pt fr rp mt t =
      (if g.aCh = false ∧ g.kCh = false then .ok ⟨[], g.saves, none⟩
       else
        .ok ⟨(resolvePhase g.st absP kosP pt fr rp mt t
                (if g.aCh = true then .ABS else .KOSYNC)).1,
             g.saves ++ (resolvePhase g.st absP kosP pt fr rp mt t
                (if g.aCh = true then .ABS else .KOSYNC)).2,
             some (if g.aCh = true then .ABS else .KOSYNC)⟩) := by
  unfold cycleBody
  rw [hg]

/-- C1: in every reconciliation cycle in which both the audio side and the
reading side are classified as changed, the audio side is selected as the
source of truth and the only propagation that can occur is the audio-sourced
one (a push of the resolved fraction/locator to the reading side) —
deterministically (the body is a function), with no merge. -/
theorem abs_wins_on_conflict (cfg : Config) (prev0 : SyncState) (absP kosP : ℚ)
    (cd : Option ℤ) (pt : Option String) (fr : FindRes) (rp : Option String)
    (mt : Option ℚ) (t : ℚ) (g : GateOut)
    (hg : gatePhase cfg prev0 absP kosP cd t = .ok g)
    (ha : g.aCh = true) (hk : g.kCh = true) :
    ∃ r, cycleBody cfg prev0 absP kosP cd pt fr rp mt t = .ok r ∧
      r.src = some Source.ABS ∧
      ∀ p ∈ r.pushes, ∃ pct xp, p = Push.kosync pct xp := by
  rw [cycleBody_eq_of_gate cfg prev0 absP kosP cd pt fr rp mt t g hg,
      if_neg (by simp [ha]), if_pos ha]
  exact ⟨_, rfl, rfl, resolvePhase_ABS_pushes g.st absP kosP pt fr rp mt t⟩

/-- Witness for C1 at a concrete conflicting cycle. -/
theorem abs_wins_on_conflict_witness :
    ∃ r, cycleBody ⟨60, 1/100⟩ ⟨0, 0, 0, 0⟩ 100 1 (some 0) (some "x")
        (.found (1/2) none 10) none none 3 = .ok r ∧
      r.src = some Source.ABS ∧
      ∀ p ∈ r.pushes, ∃ pct xp, p = Push.kosync pct xp :=
  abs_wins_on_conflict ⟨60, 1/100⟩ ⟨0, 0, 0, 0⟩ 100 1 (some 0) (some "x")
    (.found (1/2) none 10) none none 3 ⟨⟨0, 0, 0, 0⟩, [], true, true⟩
    (by unfold gatePhase; norm_num [abs_of_nonneg, abs_of_nonpos]) rfl rfl

/-- C2 counterexample. First half: with threshold 60 s, an audio delta of
exactly 60 s (a delta *at* the threshold) classifies nothing as changed —
the cycle only runs the sub-threshold stabilization of lines 256-264 and
selects no source of truth, so no resolution is attempted, contradicting
"a delta at or above the threshold always leads to a resolution attempt".
Second half: a reading delta of 0.5 % — strictly below the 1 % threshold —
still triggers a full reading-sourced propagation (a push to the audio
provider) because the character-delta corroboration of line 273 exceeds
2000, contradicting "a delta strictly below the configured threshold never
triggers propagation". -/
theorem threshold_gating_counterexample :
    cycleBody ⟨60, 1/100⟩ ⟨0, 0, 0, 0⟩ 60 0 none none .noMatch none none 7 =
        .ok ⟨[], [⟨60, 0, 7, 0⟩], none⟩ ∧
    |(60 : ℚ) - 0| = 60 ∧
    cycleBody ⟨60, 1/100⟩ ⟨0, 0, 0, 0⟩ 0 (1/200) (some 2001) none .noMatch
        (some "probe") (some 42) 7 =
      .ok ⟨[Push.abs 42], [⟨42, 1/200, 7, 0⟩], some Source.KOSYNC⟩ ∧
    |(1 : ℚ)/200 - 0| < 1/100 := by
  refine ⟨?_, by norm_num, ?_, ?_⟩
  · have hg : gatePhase ⟨60, 1/100⟩ ⟨0, 0, 0, 0⟩ 60 0 none 7 =
        .ok ⟨⟨60, 0, 7, 0⟩, [⟨60, 0, 7, 0⟩], false, false⟩ := by
      unfold gatePhase
      norm_num [abs_of_nonneg, abs_of_nonpos]
    rw [cycleBody_eq_of_gate _ _ _ _ _ _ _ _ _ _ _ hg]
    simp
  · have hg : gatePhase ⟨60, 1/100⟩ ⟨0, 0, 0, 0⟩ 0 (1/200) (some 2001) 7 =
        .ok ⟨⟨0, 0, 0, 0⟩, [], false, true⟩ := by
      unfold gatePhase
      norm_num [abs_of_nonneg, abs_of_nonpos]
    rw [cycleBody_eq_of_gate _ _ _ _ _ _ _ _ _ _ _ hg]
    simp [resolvePhase, truthy, stabilized]
  · rw [sub_zero, abs_of_nonneg (show (0 : ℚ) ≤ 1/200 by norm_num)]
    norm_num

/-- C2 amended: the comparison of lines 252-253 is strict, so a delta at or
below the threshold never classifies its side as changed (that side is never
the source and no push of its kind is issued), while only a delta strictly
above the threshold guarantees a source is selected; moreover a reading-side
delta at or below the threshold does trigger propagation whenever the
character-delta corroboration exceeds 2000. -/
theorem threshold_gating_amended (cfg : Config) (prev0 : SyncState)
    (absP kosP : ℚ) (cd : Option ℤ) (pt : Option String) (fr : FindRes)
    (rp : Option String) (mt : Option ℚ) (t : ℚ) (r : CycleResult)
    (hr : cycleBody cfg prev0 absP kosP cd pt fr rp mt t = .ok r) :
    (|absP - prev0.abs_ts| ≤ cfg.absThresh →
        r.src ≠ some Source.ABS ∧ ∀ pct xp, Push.kosync pct xp ∉ r.pushes) ∧
    (cfg.absThresh < |absP - prev0.abs_ts| → r.src = some Source.ABS) ∧
    (|kosP - prev0.kosync_pct| ≤ cfg.kosyncThresh →
        ∀ c, cd = some c → c ≤ 2000 →
          r.src ≠ some Source.KOSYNC ∧ ∀ ts, Push.abs ts ∉ r.pushes) ∧
    (cfg.kosyncThresh < |kosP - prev0.kosync_pct| → r.src.isSome = true) ∧
    (|absP - prev0.abs_ts| ≤ cfg.absThresh →
        |kosP - prev0.kosync_pct| ≤ cfg.kosyncThresh →
        0 < |kosP - prev0.kosync_pct| → ∀ c, cd = some c → 2000 < c →
          r.src = some Source.KOSYNC) := by
  obtain ⟨g, hg, hcase⟩ :=
    cycleBody_ok cfg prev0 absP kosP cd pt fr rp mt t r hr
  have haCh := gatePhase_aCh cfg prev0 absP kosP cd t g hg
  have hkCh := gatePhase_kCh cfg prev0 absP kosP cd t g hg
  refine ⟨?_, ?_, ?_, ?_, ?_⟩
  · intro hle
    have ha : g.aCh = false := by
      rw [haCh]
      simp [not_lt.mpr hle]
    rcases hcase with ⟨-, -, hrv⟩ | ⟨-, hrv⟩
    · subst hrv
      exact ⟨by simp, by simp⟩
    · subst hrv
      rw [if_neg (by simp [ha])]
      constructor
      · simp
      · intro pct xp hmem
        rcases resolvePhase_KOSYNC_pushes g.st absP kosP pt fr rp mt t _ hmem with ⟨ts, hts⟩
        exact Push.noConfusion hts
  · intro hlt
    have ha : g.aCh = true := by
      rw [haCh]
      simp [hlt]
    rcases hcase with ⟨haf, -, -⟩ | ⟨-, hrv⟩
    · rw [ha] at haf
      exact Bool.noConfusion haf
    · subst hrv
      rw [if_pos ha]
  · intro hle c hcd hcle
    have hk : g.kCh = false := by
      rcases Bool.eq_false_or_eq_true g.kCh with h1 | h1
      · rcases hkCh.mp h1 with h2 | ⟨-, c', hc', h2⟩
        · exact absurd h2 (not_lt.mpr hle)
        · rw [hcd] at hc'
          injection hc' with he
          omega
      · exact h1
    rcases hcase with ⟨-, -, hrv⟩ | ⟨hor, hrv⟩
    · subst hrv
      exact ⟨by simp, by simp⟩
    · have ha : g.aCh = true := by
        rcases hor with h1 | h1
        · exact h1
        · rw [hk] at h1
          exact Bool.noConfusion h1
      subst hrv
      rw [if_pos ha]
      constructor
      · simp
      · intro ts hmem
        rcases resolvePhase_ABS_pushes g.st absP kosP pt fr rp mt t _ hmem with ⟨pct, xp, hts⟩
        exact Push.noConfusion hts
  · intro hlt
    have hk : g.kCh = true := hkCh.mpr (Or.inl hlt)
    rcases hcase with ⟨-, hkf, -⟩ | ⟨-, hrv⟩
    · rw [hk] at hkf
      exact Bool.noConfusion hkf
    · subst hrv
      rfl
  · intro hle1 hle2 hpos c hcd h2000
    have ha : g.aCh = false := by
      rw [haCh]
      simp [not_lt.mpr hle1]
    have hk : g.kCh = true := hkCh.mpr (Or.inr ⟨hpos, c, hcd, h2000⟩)
    rcases hcase with ⟨-, hkf, -⟩ | ⟨-, hrv⟩
    · rw [hk] at hkf
      exact Bool.noConfusion hkf
    · subst hrv
      rw [if_neg (by simp [ha])]

/-- Witness for the amended C2 at a concrete quiescent cycle. -/
theorem threshold_gating_amended_witness :
    (⟨[], [], none⟩ : CycleResult).src ≠ some Source.ABS ∧
    ∀ pct xp, Push.kosync pct xp ∉ (⟨[], [], none⟩ : CycleResult).pushes :=
  (threshold_gating_amended ⟨60, 1/100⟩ ⟨0, 0, 0, 0⟩ 0 0 (some 0) none .noMatch
      none none 0 ⟨[], [], none⟩
      (by
        have hg : gatePhase ⟨60, 1/100⟩ ⟨0, 0, 0, 0⟩ 0 0 (some 0) 0 =
            .ok ⟨⟨0, 0, 0, 0⟩, [], false, false⟩ := by
          unfold gatePhase
          norm_num
        rw [cycleBody_eq_of_gate _ _ _ _ _ _ _ _ _ _ _ hg]
        simp)).1 (by norm_num)

/-- C4: in every cycle with a selected source of truth whose cross-resolution
fails (no probe text, or the resolver reported no match above its cutoff),
nothing is pushed to either collaborator and the last persisted SyncState has
both last-known values stabilized to the currently observed provider values
with a fresh timestamp. -/
theorem match_failure_stabilizes (cfg : Config) (prev0 : SyncState)
    (absP kosP : ℚ) (cd : Option ℤ) (pt : Option String) (fr : FindRes)
    (rp : Option String) (mt : Option ℚ) (t : ℚ) (g : GateOut)
    (hg : gatePhase cfg prev0 absP kosP cd t = .ok g)
    (hch : g.aCh = true ∨ g.kCh = true)
    (hfa : g.aCh = true → truthy pt = false ∨ fr = .noMatch)
    (hfk : g.aCh = false → truthy rp = false ∨ mt = none) :
    ∃ r, cycleBody cfg prev0 absP kosP cd pt fr rp mt t = .ok r ∧
      r.pushes = [] ∧
      r.saves.getLast? = some (stabilized g.st absP kosP t) ∧
      (stabilized g.st absP kosP t).abs_ts = absP ∧
      (stabilized g.st absP kosP t).kosync_pct = kosP ∧
      (stabilized g.st absP kosP t).last_updated = t := by
  have hres : resolvePhase g.st absP kosP pt fr rp mt t
      (if g.aCh = true then .ABS else .KOSYNC) =
      ([], [stabilized g.st absP kosP t]) := by
    rcases Bool.eq_false_or_eq_true g.aCh with ha | ha
    · rw [if_pos ha]
      rcases hfa ha with hpt | hfr
      · simp [resolvePhase, hpt]
      · subst hfr
        cases htr : truthy pt <;> simp [resolvePhase, htr]
    · rw [if_neg (by simp [ha])]
      rcases hfk ha with hrp | hmt
      · simp [resolvePhase, hrp]
      · subst hmt
        cases htr : truthy rp <;> simp [resolvePhase, htr]
  rw [cycleBody_eq_of_gate cfg prev0 absP kosP cd pt fr rp mt t g hg]
  rw [if_neg (by rcases hch with h | h <;> simp [h])]
  rw [hres]
  exact ⟨_, rfl, rfl, getLast?_append_singleton _ _, rfl, rfl, rfl⟩

/-- Witness for C4: an audio-sourced cycle whose transcript probe text is
missing. -/
theorem match_failure_stabilizes_witness :
    ∃ r, cycleBody ⟨60, 1/100⟩ ⟨0, 0, 0, 0⟩ 100 0 none none .noMatch none
        none 3 = .ok r ∧
      r.pushes = [] ∧
      r.saves.getLast? = some (stabilized (⟨0, 0, 0, 0⟩ : SyncState) 100 0 3) ∧
      (stabilized (⟨0, 0, 0, 0⟩ : SyncState) 100 0 3).abs_ts = 100 ∧
      (stabilized (⟨0, 0, 0, 0⟩ : SyncState) 100 0 3).kosync_pct = 0 ∧
      (stabilized (⟨0, 0, 0, 0⟩ : SyncState) 100 0 3).last_updated = 3 :=
  match_failure_stabilizes ⟨60, 1/100⟩ ⟨0, 0, 0, 0⟩ 100 0 none none .noMatch
    none none 3 ⟨⟨0, 0, 0, 0⟩, [], true, false⟩
    (by unfold gatePhase; norm_num)
    (Or.inl rfl) (fun _ => Or.inl rfl) (fun h => Bool.noConfusion h)

/-- C6 (code bug): with an active mapping whose reading-side delta is
positive but at most the threshold (here 0.1 % against a 1 % threshold), and
`get_character_delta` reporting no result (`None`, as it does for a missing
book file or empty indexed text — second conjunct), the comparison
`index_delta > 2000` on line 273 of `main.py` raises an uncaught `TypeError`
(`'>' not supported between instances of 'NoneType' and 'int'`) that escapes
`sync_cycle`, instead of the claimed reclassify-or-stabilize outcome. -/
theorem character_delta_none_type_error :
    cycleBody ⟨60, 1/100⟩ ⟨0, 1/2, 0, 0⟩ 0 (501/1000) none none .noMatch
        none none 9 = .error .typeError ∧
    getCharacterDelta "" (1/2) (501/1000) = none ∧
    |(501 : ℚ)/1000 - 1/2| ≤ 1/100 ∧ 0 < |(501 : ℚ)/1000 - 1/2| := by
  refine ⟨?_, rfl, ?_, ?_⟩
  · unfold cycleBody gatePhase
    norm_num [abs_of_nonneg, abs_of_nonpos]
  · rw [show (501 : ℚ)/1000 - 1/2 = 1/1000 by norm_num,
        abs_of_nonneg (show (0 : ℚ) ≤ 1/1000 by norm_num)]
    norm_num
  · rw [show (501 : ℚ)/1000 - 1/2 = 1/1000 by norm_num,
        abs_of_nonneg (show (0 : ℚ) ≤ 1/1000 by norm_num)]
    norm_num

/-- C7 (code bug): on an empty indexed stream, `get_text_at_percentage` and
`get_character_delta` do return the well-formed `None`, but
`find_text_location` returns the 2-tuple `(None, None)` of line 171 — not the
well-formed no-match 3-tuple — so the 3-way unpacking at its only call site
(line 303 of `main.py`) raises `ValueError` instead of receiving a no-match
result; inside the propagation block this caught error silently skips both
the push and the state save (last conjunct). -/
theorem empty_stream_malformed_result :
    findTextLocation (fun _ _ => none) (fun _ _ => "") "" [] "abc" =
        .malformed ∧
    FindRes.malformed ≠ FindRes.noMatch ∧
    getTextAtPercentage "" (1/2) = none ∧
    getCharacterDelta "" (1/10) (1/2) = none ∧
    resolvePhase ⟨0, 0, 0, 0⟩ 1 2 (some "probe") .malformed none none 3
        .ABS = ([], []) := by
  refine ⟨rfl, by simp, rfl, rfl, ?_⟩
  simp [resolvePhase, truthy]

/-- C8 counterexample: an audio-sourced propagation that matches at absolute
character offset 40 while the previously stored `kosync_index` is 100 —
the persisted state records `|40 - 100| = 60` (the `index_delta` of line
308), not the matched absolute character offset 40. -/
theorem audio_propagation_counterexample :
    cycleBody ⟨60, 1/100⟩ ⟨0, 0, 0, 100⟩ 100 0 none (some "x")
        (.found (1/5) none 40) none none 5 =
      .ok ⟨[Push.kosync (1/5) none], [⟨100, 1/5, 5, 60⟩], some Source.ABS⟩ ∧
    (60 : ℤ) ≠ 40 := by
  refine ⟨?_, by decide⟩
  have hg : gatePhase ⟨60, 1/100⟩ ⟨0, 0, 0, 100⟩ 100 0 none 5 =
      .ok ⟨⟨0, 0, 0, 100⟩, [], true, false⟩ := by
    unfold gatePhase
    norm_num [abs_of_nonneg, abs_of_nonpos]
  rw [cycleBody_eq_of_gate _ _ _ _ _ _ _ _ _ _ _ hg]
  simp [resolvePhase, truthy]

/-- C8 amended: after every successful audio-sourced propagation the
persisted SyncState contains the observed audio timestamp, the matched
reading fraction and the update time, and in the `kosync_index` field the
absolute difference between the matched character offset and the previously
stored `kosync_index` (a work-in-progress character-delta measure), not the
matched absolute character offset itself. -/
theorem audio_propagation_state_amended (cfg : Config) (prev0 : SyncState)
    (absP kosP : ℚ) (cd : Option ℤ) (pt : Option String) (rp : Option String)
    (mt : Option ℚ) (t : ℚ) (g : GateOut) (pct : ℚ) (xp : Option String)
    (idx : ℕ)
    (hg : gatePhase cfg prev0 absP kosP cd t = .ok g)
    (ha : g.aCh = true) (hpt : truthy pt = true) :
    ∃ r s, cycleBody cfg prev0 absP kosP cd pt (.found pct xp idx) rp mt t =
        .ok r ∧
      r.pushes = [Push.kosync pct xp] ∧
      r.saves.getLast? = some s ∧
      s.abs_ts = absP ∧ s.kosync_pct = pct ∧
      s.kosync_index = |(idx : ℤ) - g.st.kosync_index| ∧
      s.last_updated = t := by
  rw [cycleBody_eq_of_gate cfg prev0 absP kosP cd pt (.found pct xp idx) rp mt
        t g hg]
  rw [if_neg (by simp [ha]), if_pos ha]
  have hres : resolvePhase g.st absP kosP pt (.found pct xp idx) rp mt t
      Source.ABS =
      ([Push.kosync pct xp],
       [⟨absP, pct, t, |(idx : ℤ) - g.st.kosync_index|⟩]) := by
    simp [resolvePhase, hpt]
  rw [hres]
  exact ⟨_, _, rfl, rfl, getLast?_append_singleton _ _, rfl, rfl, rfl, rfl⟩

/-- Witness for the amended C8 at a concrete matched cycle. -/
theorem audio_propagation_state_amended_witness :
    ∃ r s, cycleBody ⟨60, 1/100⟩ ⟨0, 0, 0, 0⟩ 100 0 none (some "x")
        (.found (1/5) none 40) none none 5 = .ok r ∧
      r.pushes = [Push.kosync (1/5) none] ∧
      r.saves.getLast? = some s ∧
      s.abs_ts = 100 ∧ s.kosync_pct = 1/5 ∧
      s.kosync_index =
        |(40 : ℤ) - (⟨⟨0, 0, 0, 0⟩, [], true, false⟩ : GateOut).st.kosync_index| ∧
      s.last_updated = 5 :=
  audio_propagation_state_amended ⟨60, 1/100⟩ ⟨0, 0, 0, 0⟩ 100 0 none
    (some "x") none none 5 ⟨⟨0, 0, 0, 0⟩, [], true, false⟩ (1/5) none 40
    (by unfold gatePhase; norm_num) rfl (by decide)

/-- C3 counterexample: on the stream `"!!!!!"` (non-empty) and snippet
`"!!!?"`, with a fuzzy aligner reporting the best alignment at score exactly
75 and offset 0 (the score RapidFuzz itself produces for this pair), the
exact tier fails, both normalized strings are empty, and the implementation
returns no-match from the caught `ZeroDivisionError` of line 192 without
consulting the fuzzy tier — while the three-tier contract of the claim
(formalized as `findTextLocationSpec`) produces a match. -/
theorem find_text_tiers_counterexample :
    findTextLocation (fun _ _ => some ((75 : ℚ), 0)) (fun _ _ => "")
        "!!!!!" [] "!!!?" = .noMatch ∧
    findTextLocationSpec (fun _ _ => some ((75 : ℚ), 0)) (fun _ _ => "")
        "!!!!!" [] "!!!?" = .found 0 none 0 ∧
    ("!!!!!" : String) ≠ "" ∧
    FindRes.noMatch ≠ FindRes.found 0 none 0 := by
  refine ⟨rfl, ?_, by decide, by decide⟩
  show finishMatch (fun _ _ => "") "!!!!!" [] 0 = .found 0 none 0
  simp [finishMatch]

/-- C3 amended, for every snippet and every indexed stream: on the empty
stream `find_text_location` returns the malformed 2-tuple of line 171 before
any tier runs; on every non-empty stream the three tiers apply in order —
exact leftmost occurrence first, then normalized search with proportional
conversion, then fuzzy alignment accepted exactly when its score is at least
75 with the alignment's start offset as the match offset — first success
wins and total failure yields no-match, except in the corner where the exact
tier fails and both normalized strings are empty: a caught division-by-zero
then yields no-match without consulting the fuzzy tier. -/
theorem find_text_tiers_amended (align : String → String → Option (ℚ × ℕ))
    (xg : Fragment → ℕ → String) (ft : String) (sm : List Fragment)
    (ph : String) :
    (ft = "" → findTextLocation align xg ft sm ph = .malformed) ∧
    (ft ≠ "" →
    (∀ i, occursAt ft ph i → (∀ j, j < i → ¬ occursAt ft ph j) →
        findTextLocation align xg ft sm ph = finishMatch xg ft sm i) ∧
    (strFind ft ph = none →
      ((∀ ni, strFind (normalizeText ft) (normalizeText ph) = some ni →
          (((normalizeText ft).length ≠ 0 →
              findTextLocation align xg ft sm ph =
                finishMatch xg ft sm
                  (ni * ft.length / (normalizeText ft).length)) ∧
           ((normalizeText ft).length = 0 →
              findTextLocation align xg ft sm ph = .noMatch))) ∧
       (strFind (normalizeText ft) (normalizeText ph) = none →
         ((∀ s d, align ph ft = some (s, d) →
             ((75 ≤ s →
                 findTextLocation align xg ft sm ph = finishMatch xg ft sm d) ∧
              (s < 75 → findTextLocation align xg ft sm ph = .noMatch))) ∧
          (align ph ft = none →
              findTextLocation align xg ft sm ph = .noMatch)))))) := by
  constructor
  · intro hft0
    subst hft0
    rfl
  intro hft
  constructor
  · intro i hocc hmin
    have hfind : strFind ft ph = some i := by
      rw [strFind, listFind_some_iff]
      exact ⟨hocc, fun j hj => Bool.eq_false_iff.mpr (hmin j hj)⟩
    simp only [findTextLocation, hfind]
    rw [if_neg hft]
  · intro hnone
    constructor
    · intro ni hni
      constructor
      · intro hlen
        simp only [findTextLocation, hnone, hni]
        rw [if_neg hft, if_neg hlen]
      · intro hlen
        simp only [findTextLocation, hnone, hni]
        rw [if_neg hft, if_pos hlen]
    · intro hnone2
      constructor
      · intro s d hal
        constructor
        · intro h75
          simp only [findTextLocation, hnone, hnone2, hal]
          rw [if_neg hft, if_pos h75]
        · intro h75
          simp only [findTextLocation, hnone, hnone2, hal]
          rw [if_neg hft, if_neg (not_le.mpr h75)]
      · intro hal
        simp only [findTextLocation, hnone, hnone2, hal]
        rw [if_neg hft]

/-- Witness for the amended C3: the exact tier on a concrete stream. -/
theorem find_text_tiers_amended_witness :
    findTextLocation (fun _ _ => none) (fun _ _ => "q") "abcd" [] "bc" =
      finishMatch (fun _ _ => "q") "abcd" [] 1 :=
  ((find_text_tiers_amended (fun _ _ => none) (fun _ _ => "q") "abcd" []
      "bc").2 (by decide)).1 1 (by decide)
    (by
      intro j hj
      have hj0 : j = 0 := by omega
      subst hj0
      decide)

/-- C5: for every indexed work the fragment ranges are pairwise ordered by
offset and by spine sequence index (hence sorted and non-overlapping),
adjacent fragments are contiguous up to exactly one separator, each
fragment's `[start, stop)` width equals its extracted text length, and the
combined stream length is the sum of the fragment text lengths plus one
separator per fragment boundary. -/
theorem fragment_map_invariant (items : List SpineItem) :
    (extractTextAndMap items).2.Pairwise
        (fun f g => f.stop < g.start ∧ f.spineIndex < g.spineIndex) ∧
    (extractTextAndMap items).2.Chain' (fun f g => f.stop + 1 = g.start) ∧
    (∀ f ∈ (extractTextAndMap items).2, f.stop = f.start + f.text.length) ∧
    (extractTextAndMap items).1.length =
      ((extractTextAndMap items).2.map fun f => f.text.length).sum +
        (extractTextAndMap items).2.length - 1 := by
  obtain ⟨hp, hmem, hpw, hch, -⟩ := buildParts_inv items 0 0
  refine ⟨hpw, hch, fun f hf => (hmem f hf).2.1, ?_⟩
  show (joinSp (buildParts items 0 0).2).length = _
  rw [joinSp_length, hp, List.map_map, List.length_map]
  rfl

/-- Witness for C5 on a concrete two-document spine with a skipped
non-document item. -/
theorem fragment_map_invariant_witness :
    (Fragment.mk 3 6 3 "cde") ∈
      (extractTextAndMap [.doc "ab", .other, .doc "cde"]).2 ∧
    (Fragment.mk 3 6 3 "cde").stop =
      (Fragment.mk 3 6 3 "cde").start + (Fragment.mk 3 6 3 "cde").text.length :=
  ⟨by decide,
   (fragment_map_invariant [.doc "ab", .other, .doc "cde"]).2.2.1
     (Fragment.mk 3 6 3 "cde") (by decide)⟩

/-- C9 counterexample: one single run of `check_pending_jobs` over a db with
two pending mappings claims and fully processes both of them (the loop of
line 187 has no break), contradicting "claims at most one pending WorkItem
per run"; the save trace shows each marked `processing` and persisted before
its preparation outcome. -/
theorem pending_drain_counterexample :
    checkPendingJobs (fun _ => .success "t")
        [⟨1, .pending, none⟩, ⟨2, .pending, none⟩] =
      ([⟨1, .active, some "t"⟩, ⟨2, .active, some "t"⟩],
       [[⟨1, .processing, none⟩, ⟨2, .pending, none⟩],
        [⟨1, .active, some "t"⟩, ⟨2, .pending, none⟩],
        [⟨1, .active, some "t"⟩, ⟨2, .processing, none⟩],
        [⟨1, .active, some "t"⟩, ⟨2, .active, some "t"⟩]]) ∧
    ((checkPendingJobs (fun _ => .success "t")
        [⟨1, .pending, none⟩, ⟨2, .pending, none⟩]).1.countP
          fun m => m.status != JobStatus.pending) = 2 ∧
    ¬ (2 ≤ 1) :=
  ⟨rfl, by decide, by decide⟩

/-- C9 amended: each run of the periodic pending-job check claims every
pending WorkItem in db order (not at most one): each is marked `processing`
and that status persisted before any blocking preparation work (the
`processing` snapshot strictly precedes the outcome snapshot in the save
trace), then marked `active` on success, `failed_retry_later` on exception,
or `failed` when no audio files are found, while non-pending items are left
untouched. -/
theorem pending_drain_amended (oc : ℕ → PrepOutcome) (db pre post : List JobMapping)
    (m : JobMapping) (hdb : db = pre ++ m :: post) (hm : m.status = .pending) :
    (checkPendingJobs oc db).1 = db.map (stepJob oc) ∧
    ∃ j k : ℕ, j < k ∧
      (checkPendingJobs oc db).2[j]? =
        some (pre.map (stepJob oc) ++ { m with status := .processing } :: post) ∧
      (checkPendingJobs oc db).2[k]? =
        some (pre.map (stepJob oc) ++ stepJob oc m :: post) := by
  subst hdb
  constructor
  · simpa using checkPendingAux_fst oc (pre ++ m :: post) []
  · simpa using checkPendingAux_trace oc pre m post hm []

/-- Witness for the amended C9: a two-item db whose pending item fails with
an exception. -/
theorem pending_drain_amended_witness :
    (checkPendingJobs (fun _ => PrepOutcome.exc)
        [⟨5, .active, none⟩, ⟨6, .pending, none⟩]).1 =
      [(⟨5, .active, none⟩ : JobMapping), ⟨6, .pending, none⟩].map
        (stepJob fun _ => PrepOutcome.exc) ∧
    ∃ j k : ℕ, j < k ∧
      (checkPendingJobs (fun _ => PrepOutcome.exc)
          [⟨5, .active, none⟩, ⟨6, .pending, none⟩]).2[j]? =
        some ([(⟨5, .active, none⟩ : JobMapping)].map
            (stepJob fun _ => PrepOutcome.exc) ++
          { (⟨6, .pending, none⟩ : JobMapping) with status := .processing } :: []) ∧
      (checkPendingJobs (fun _ => PrepOutcome.exc)
          [⟨5, .active, none⟩, ⟨6, .pending, none⟩]).2[k]? =
        some ([(⟨5, .active, none⟩ : JobMapping)].map
            (stepJob fun _ => PrepOutcome.exc) ++
          stepJob (fun _ => PrepOutcome.exc) ⟨6, .pending, none⟩ :: []) :=
  pending_drain_amended (fun _ => PrepOutcome.exc)
    [⟨5, .active, none⟩, ⟨6, .pending, none⟩]
    [⟨5, .active, none⟩] [] ⟨6, .pending, none⟩ rfl rfl

/-- C10: a WorkItem persisted as `processing` before a restart is `crashed`
after the startup cleanup; the cleanup is idempotent (a second run changes
nothing, so the transition happens exactly once) and leaves no `processing`
item behind; and a `crashed` item is left completely untouched by any
subsequent pending-job scan — never selected, never silently resumed. -/
theorem crash_recovery_exclusion (db : List JobMapping) (oc : ℕ → PrepOutcome)
    (i : ℕ) (h : i < db.length) :
    ((db.get ⟨i, h⟩).status = .processing →
      ∃ h2 : i < (cleanupStaleJobs db).length,
        ((cleanupStaleJobs db).get ⟨i, h2⟩).status = .crashed) ∧
    cleanupStaleJobs (cleanupStaleJobs db) = cleanupStaleJobs db ∧
    (∀ mp ∈ cleanupStaleJobs db, mp.status ≠ .processing) ∧
    ((db.get ⟨i, h⟩).status = .crashed →
      ∃ h3 : i < (checkPendingJobs oc db).1.length,
        ((checkPendingJobs oc db).1.get ⟨i, h3⟩) = db.get ⟨i, h⟩) := by
  refine ⟨?_, ?_, ?_, ?_⟩
  · intro hp
    have h2 : i < (cleanupStaleJobs db).length := by
      simpa [cleanupStaleJobs] using h
    refine ⟨h2, ?_⟩
    simp only [cleanupStaleJobs, List.get_eq_getElem, List.getElem_map]
    rw [List.get_eq_getElem] at hp
    simp [hp]
  · simp only [cleanupStaleJobs, List.map_map]
    apply List.map_congr_left
    intro mp _
    by_cases hs : mp.status = .processing
    · simp [Function.comp, hs]
    · simp [Function.comp, hs]
  · intro mp hmp
    rcases List.mem_map.mp hmp with ⟨x, -, hmap⟩
    by_cases hs : x.status = .processing
    · rw [if_pos hs] at hmap
      rw [← hmap]
      simp
    · rw [if_neg hs] at hmap
      rw [← hmap]
      exact hs
  · intro hc
    have hfin : (checkPendingJobs oc db).1 = db.map (stepJob oc) := by
      simpa using checkPendingAux_fst oc db []
    have h3 : i < (checkPendingJobs oc db).1.length := by
      rw [hfin, List.length_map]
      exact h
    refine ⟨h3, ?_⟩
    apply Option.some.inj
    rw [List.get_eq_getElem, List.get_eq_getElem, ← List.getElem?_eq_getElem,
        ← List.getElem?_eq_getElem]
    show (checkPendingJobs oc db).1[i]? = db[i]?
    rw [hfin, List.getElem?_map, List.getElem?_eq_getElem h]
    rw [List.get_eq_getElem] at hc
    simp [stepJob, hc]

/-- Witness for C10 at a concrete interrupted job. -/
theorem crash_recovery_exclusion_witness :
    ∃ h2 : 0 < (cleanupStaleJobs [⟨9, .processing, none⟩]).length,
      ((cleanupStaleJobs [⟨9, .processing, none⟩]).get ⟨0, h2⟩).status =
        .crashed :=
  (crash_recovery_exclusion [⟨9, .processing, none⟩] (fun _ => PrepOutcome.exc)
      0 (by decide)).1 rfl
